import Mathlib

/-!
Verification of the birpc repository: a shallow embedding of the msgpack
server codec (src/msgpack/server.go) and of the handlers registered by the
jsonrpc test suite (src/jsonrpc/all_test.go), together with a spec-derived
model of the server serve loop, and theorems settling the spec claims.
-/

namespace Birpc

/-- The birpc.Request header: service method name and sequence number. -/
structure Request where
  ServiceMethod : String
  Seq : Nat
  deriving Repr, DecidableEq

/-- The birpc.Response header: service method name, sequence number, and
error text (empty string means no error). -/
structure Response where
  ServiceMethod : String
  Seq : Nat
  Error : String
  deriving Repr, DecidableEq

end Birpc

namespace Rpc

/-- The net/rpc Request header handed to the underlying ugorji codec. -/
structure Request where
  ServiceMethod : String
  Seq : Nat
  deriving Repr, DecidableEq

/-- The net/rpc Response header handed to the underlying ugorji codec. -/
structure Response where
  ServiceMethod : String
  Seq : Nat
  Error : String
  deriving Repr, DecidableEq

end Rpc

namespace Msgpack

/-- Embeds convertFromRPCRequest from src/msgpack/server.go: copies the
ServiceMethod and Seq of the decoded net/rpc request into the birpc request. -/
def convertFromRPCRequest (originReq : Rpc.Request) (req : Birpc.Request) :
    Birpc.Request :=
  { req with ServiceMethod := originReq.ServiceMethod, Seq := originReq.Seq }

/-- Embeds convertToRPCResponse from src/msgpack/server.go: the Go struct
literal sets Seq from the birpc response Seq and sets the ServiceMethod field
to the birpc response Error text; the Error field is left at its zero value
(the empty string). -/
def convertToRPCResponse (res : Birpc.Response) : Rpc.Response :=
  { ServiceMethod := res.Error, Seq := res.Seq, Error := "" }

/-- Embeds msgpackServerCodec.ReadRequestHeader. The read performed by the
underlying ugorji codec into the freshly allocated rpc.Request is modelled as
a parameter: either an error or the decoded header. On error the method
returns that error with the caller request untouched; on success it copies the
decoded header into the caller request via convertFromRPCRequest and returns
no error. The result pairs the returned error with the final state of the
caller-supplied request. -/
def msgpackServerCodec.ReadRequestHeader (underlying : Except String Rpc.Request)
    (r : Birpc.Request) : Option String × Birpc.Request :=
  match underlying with
  | .error e => (some e, r)
  | .ok ugorjiRequest => (none, convertFromRPCRequest ugorjiRequest r)

/-- Embeds msgpackServerCodec.WriteResponse: it converts the birpc response
header with convertToRPCResponse and forwards the converted header and the
unchanged body to the underlying ugorji codec. The result is the pair handed
to that codec. -/
def msgpackServerCodec.WriteResponse {α : Type} (r : Birpc.Response) (body : α) :
    Rpc.Response × α :=
  (convertToRPCResponse r, body)

end Msgpack

namespace Jsonrpc

/-- The Args argument struct of the test handlers: two ints. -/
structure Args where
  A : Int
  B : Int
  deriving Repr, DecidableEq

/-- The Reply struct of the test handlers: one int field C. -/
structure Reply where
  C : Int
  deriving Repr, DecidableEq

/-- The smallest value of the Go int type, a signed 64-bit integer. -/
def minInt64 : Int := -(2 ^ 63)

/-- The largest value of the Go int type, a signed 64-bit integer. -/
def maxInt64 : Int := 2 ^ 63 - 1

/-- Reduction of an integer to the Go int type: Go int arithmetic is 64-bit
wrapping arithmetic on signed 64-bit values, so every result is taken
modulo 2 to the 64 into the interval from minInt64 to maxInt64. -/
def wrap64 (x : Int) : Int := (x + 2 ^ 63) % 2 ^ 64 - 2 ^ 63

namespace Arith

/-- Embeds Arith.Add from src/jsonrpc/all_test.go: sets reply.C to A plus B
computed in the Go int type, which wraps on overflow, and returns a nil
error. The Go handler mutates the reply slot; here the result pairs the
returned error with the final reply value. -/
def Add (args : Args) (reply : Reply) : Option String × Reply :=
  (none, { reply with C := wrap64 (args.A + args.B) })

/-- Embeds Arith.Mul from src/jsonrpc/all_test.go: sets reply.C to A times B
computed in the Go int type, which wraps on overflow, and returns a nil
error. -/
def Mul (args : Args) (reply : Reply) : Option String × Reply :=
  (none, { reply with C := wrap64 (args.A * args.B) })

/-- Embeds Arith.Div from src/jsonrpc/all_test.go: when B is zero it returns
the error "divide by zero" without touching the reply; otherwise it sets
reply.C to the Go integer quotient of A by B and returns a nil error. Go
division truncates toward zero, which is Int.tdiv, and the lone overflow
case minInt64 divided by -1 wraps back to minInt64, which wrap64 yields. -/
def Div (args : Args) (reply : Reply) : Option String × Reply :=
  if args.B = 0 then (some "divide by zero", reply)
  else (none, { reply with C := wrap64 (args.A.tdiv args.B) })

end Arith

namespace BuiltinTypes

/-- Embeds BuiltinTypes.Map from src/jsonrpc/all_test.go: stores i at key i
in the caller-supplied reply map and returns a nil error. The Go map is
modelled as a partial function from keys to values. -/
def Map (i : Int) (reply : Int → Option Int) :
    Option String × (Int → Option Int) :=
  (none, fun j => if j = i then some i else reply j)

/-- Embeds BuiltinTypes.Slice from src/jsonrpc/all_test.go: appends i to the
caller-supplied reply slice and returns a nil error. -/
def Slice (i : Int) (reply : List Int) : Option String × List Int :=
  (none, reply ++ [i])

/-- The reply type of BuiltinTypes.Array: a one-element int array. -/
structure Arr1 where
  elem0 : Int
  deriving Repr, DecidableEq

/-- Embeds BuiltinTypes.Array from src/jsonrpc/all_test.go: sets element 0 of
the caller-supplied one-element reply array to i and returns a nil error. -/
def Array (i : Int) (reply : Arr1) : Option String × Arr1 :=
  (none, { reply with elem0 := i })

end BuiltinTypes

end Jsonrpc

namespace Serve

/-- Modelled from the spec: the server dispatcher and serve loop live in the
birpc core (birpc.Server.ServeCodec and jsonrpc.ServeConn), whose source is
not part of src/; only the tests driving them are. The outcome of one handler
invocation is either a normal return of an error value and a reply, or
abnormal termination with a failure description. -/
inductive HandlerOutcome where
  | ret (err : Option String) (reply : Jsonrpc.Reply)
  | panicked (msg : String)
  deriving Repr, DecidableEq

/-- Modelled from the spec: one item arriving on the connection, as the serve
loop sees it after the codec parse step. It is either bytes that fail to
parse as a request (a malformed header or body) or a successfully parsed
request header paired with the outcome its handler will produce. -/
inductive Incoming where
  | malformed
  | request (req : Birpc.Request) (outcome : HandlerOutcome)
  deriving Repr, DecidableEq

/-- Modelled from the spec: the response written for one invocation carries
the request sequence number and either an error text with no body, or an
empty error with the reply body. -/
structure WireResponse where
  seq : Nat
  error : String
  body : Option Jsonrpc.Reply
  deriving Repr, DecidableEq

/-- Modelled from the spec: dispatching one parsed request. A nil-error
return writes a success response carrying the reply body; an error return
writes the error text and no body; abnormal handler termination is recovered
at the invocation boundary and converted into an error response carrying the
failure description. -/
def dispatchResponse (req : Birpc.Request) : HandlerOutcome → WireResponse
  | .ret none reply => { seq := req.Seq, error := "", body := some reply }
  | .ret (some e) _ => { seq := req.Seq, error := e, body := none }
  | .panicked msg => { seq := req.Seq, error := msg, body := none }

/-- Modelled from the spec: the serve loop reads items in stream order. A
parse failure is fatal to this loop, which returns at once; a parsed request
is dispatched and the loop continues. The result lists the responses written
on the connection. -/
def serveLoop : List Incoming → List WireResponse
  | [] => []
  | .malformed :: _ => []
  | .request req outcome :: rest => dispatchResponse req outcome :: serveLoop rest

end Serve

/-- C1: the claim says a birpc.Response with non-empty Error handed to the
msgpack WriteResponse emits that text in the wire error field and never both
result and error. The code instead copies the Error text into the
ServiceMethod field of the net/rpc response, leaves its Error field empty,
and still forwards the body unchanged, so the error text never reaches the
wire error field. Evaluated at the failing input Response with Seq 7 and
Error "divide by zero" and a non-nil body. -/
theorem convertToRPCResponse_drops_error_text :
    (Msgpack.convertToRPCResponse
        { ServiceMethod := "", Seq := 7, Error := "divide by zero" }).Error = ""
    ∧ (Msgpack.convertToRPCResponse
        { ServiceMethod := "", Seq := 7, Error := "divide by zero" }).ServiceMethod
        = "divide by zero"
    ∧ (Msgpack.msgpackServerCodec.WriteResponse
        { ServiceMethod := "", Seq := 7, Error := "divide by zero" }
        (some (42 : Int))).2 = some 42 :=
  ⟨rfl, rfl, rfl⟩

/-- C2: whenever the underlying codec decodes a wire request header, the
msgpack ReadRequestHeader returns no error and the caller-supplied
birpc.Request ends up holding exactly the decoded ServiceMethod and Seq. -/
theorem readRequestHeader_copies_decoded_header (u : Rpc.Request)
    (r : Birpc.Request) :
    Msgpack.msgpackServerCodec.ReadRequestHeader (.ok u) r
      = (none, { ServiceMethod := u.ServiceMethod, Seq := u.Seq }) :=
  rfl

/-- C3: the response handed to the underlying codec by the msgpack
WriteResponse carries the same Seq as the input birpc.Response header. -/
theorem writeResponse_preserves_seq {α : Type} (r : Birpc.Response) (body : α) :
    ((Msgpack.msgpackServerCodec.WriteResponse r body).1).Seq = r.Seq :=
  rfl

/-- A value already in the signed 64-bit range is left unchanged by the
reduction into the Go int type. -/
theorem wrap64_eq_self (x : Int) (h1 : Jsonrpc.minInt64 ≤ x)
    (h2 : x ≤ Jsonrpc.maxInt64) : Jsonrpc.wrap64 x = x := by
  have e1 : (2 : Int) ^ 63 = 9223372036854775808 := by norm_num
  have e2 : (2 : Int) ^ 64 = 18446744073709551616 := by norm_num
  simp only [Jsonrpc.minInt64, Jsonrpc.maxInt64, e1] at h1 h2
  simp only [Jsonrpc.wrap64, e1, e2]
  omega

/-- For signed 64-bit operands with a nonzero divisor, the truncated quotient
is itself in the signed 64-bit range except for minInt64 divided by -1. -/
theorem tdiv_in_int64_range (a b : Int) (hb : b ≠ 0)
    (ha1 : Jsonrpc.minInt64 ≤ a) (ha2 : a ≤ Jsonrpc.maxInt64)
    (hb1 : Jsonrpc.minInt64 ≤ b) (hb2 : b ≤ Jsonrpc.maxInt64)
    (hx : ¬(a = Jsonrpc.minInt64 ∧ b = -1)) :
    Jsonrpc.minInt64 ≤ a.tdiv b ∧ a.tdiv b ≤ Jsonrpc.maxInt64 := by
  have e1 : (2 : Int) ^ 63 = 9223372036854775808 := by norm_num
  simp only [Jsonrpc.minInt64, Jsonrpc.maxInt64, e1] at ha1 ha2 hb1 hb2 hx ⊢
  rcases eq_or_ne b.natAbs 1 with h1 | h1
  · have hb' : b = 1 ∨ b = -1 := by omega
    rcases hb' with rfl | rfl
    · rw [Int.tdiv_one]
      omega
    · have hneg : a.tdiv (-1) = -a := by
        have h := Int.tdiv_neg a 1
        rw [Int.tdiv_one] at h
        exact h
      rw [hneg]
      omega
  · have h2 : 2 ≤ b.natAbs := by omega
    have hbound : (a.tdiv b).natAbs ≤ a.natAbs / 2 := by
      rw [Int.natAbs_tdiv]
      exact Nat.div_le_div_left h2 (by norm_num)
    omega

/-- C4 counterexample: the claim as stated fails on the code because Go int
arithmetic wraps. At Args with A the largest int and B one, Add yields the
smallest int rather than the sum, and at A the largest int with B two, Mul
yields -2 rather than the product. -/
theorem arith_add_mul_overflow_wraps :
    Jsonrpc.Arith.Add { A := 2 ^ 63 - 1, B := 1 } { C := 0 }
      = (none, { C := -(2 ^ 63) })
    ∧ (-(2 ^ 63) : Int) ≠ (2 ^ 63 - 1) + 1
    ∧ Jsonrpc.Arith.Mul { A := 2 ^ 63 - 1, B := 2 } { C := 0 }
      = (none, { C := -2 })
    ∧ (-2 : Int) ≠ (2 ^ 63 - 1) * 2 :=
  ⟨by decide, by decide, by decide, by decide⟩

/-- C4 (amended): Arith.Add and Arith.Mul always return no error, and for
every Args whose sum, respectively product, is representable in the signed
64-bit Go int type they set reply.C to A plus B, respectively A times B (a
result outside that range wraps); in particular Add of 7 and 8 yields 15 and
Mul of 7 and 8 yields 56. -/
theorem arith_add_mul_correct (args : Jsonrpc.Args) (reply : Jsonrpc.Reply) :
    (Jsonrpc.Arith.Add args reply).1 = none
    ∧ (Jsonrpc.Arith.Mul args reply).1 = none
    ∧ (Jsonrpc.minInt64 ≤ args.A + args.B → args.A + args.B ≤ Jsonrpc.maxInt64 →
        Jsonrpc.Arith.Add args reply = (none, { C := args.A + args.B }))
    ∧ (Jsonrpc.minInt64 ≤ args.A * args.B → args.A * args.B ≤ Jsonrpc.maxInt64 →
        Jsonrpc.Arith.Mul args reply = (none, { C := args.A * args.B })) := by
  refine ⟨rfl, rfl, ?_, ?_⟩
  · intro h1 h2
    simp [Jsonrpc.Arith.Add, wrap64_eq_self _ h1 h2]
  · intro h1 h2
    simp [Jsonrpc.Arith.Mul, wrap64_eq_self _ h1 h2]

/-- C4 witness: Add of 7 and 8 on a zero reply yields 15 with no error, and
Mul of 7 and 8 yields 56 with no error. -/
theorem arith_add_mul_correct_witness :
    Jsonrpc.Arith.Add { A := 7, B := 8 } { C := 0 } = (none, { C := 15 })
    ∧ Jsonrpc.Arith.Mul { A := 7, B := 8 } { C := 0 } = (none, { C := 56 }) := by
  constructor
  · have h := (arith_add_mul_correct { A := 7, B := 8 } { C := 0 }).2.2.1
      (by decide) (by decide)
    exact h.trans (by decide)
  · have h := (arith_add_mul_correct { A := 7, B := 8 } { C := 0 }).2.2.2
      (by decide) (by decide)
    exact h.trans (by decide)

/-- C5 counterexample: the claim as stated fails on the code at the one
representable input whose quotient is not representable: dividing the
smallest int by -1 wraps, so Div yields the smallest int while the integer
quotient is 2 to the 63. -/
theorem arith_div_wraps_at_min_int64 :
    Jsonrpc.Arith.Div { A := -(2 ^ 63), B := -1 } { C := 0 }
      = (none, { C := -(2 ^ 63) })
    ∧ ((-(2 ^ 63) : Int)).tdiv (-1) = 2 ^ 63
    ∧ ((-(2 ^ 63)) : Int) ≠ 2 ^ 63 :=
  ⟨by decide, by decide, by decide⟩

/-- C5 (amended): Arith.Div returns the error "divide by zero" and leaves the
reply untouched exactly when B is zero (so a zero-valued reply slot stays
zero); for every Args of signed 64-bit values with B nonzero, other than A
the smallest int with B equal to -1 where the result wraps to the smallest
int, it returns no error with reply.C set to the truncated integer quotient
of A by B. -/
theorem arith_div_correct (args : Jsonrpc.Args) (reply : Jsonrpc.Reply) :
    (args.B = 0 →
      Jsonrpc.Arith.Div args reply = (some "divide by zero", reply))
    ∧ (args.B ≠ 0 →
       Jsonrpc.minInt64 ≤ args.A → args.A ≤ Jsonrpc.maxInt64 →
       Jsonrpc.minInt64 ≤ args.B → args.B ≤ Jsonrpc.maxInt64 →
       ¬(args.A = Jsonrpc.minInt64 ∧ args.B = -1) →
       Jsonrpc.Arith.Div args reply = (none, { C := args.A.tdiv args.B })) := by
  constructor
  · intro h
    simp [Jsonrpc.Arith.Div, h]
  · intro h ha1 ha2 hb1 hb2 hx
    have hr := tdiv_in_int64_range args.A args.B h ha1 ha2 hb1 hb2 hx
    simp [Jsonrpc.Arith.Div, h, wrap64_eq_self _ hr.1 hr.2]

/-- C5 witness: Div of 7 and 0 on a zero reply gives the divide-by-zero error
and the zero reply; Div of 9 and 2 gives quotient 4 and no error. -/
theorem arith_div_correct_witness :
    Jsonrpc.Arith.Div { A := 7, B := 0 } { C := 0 }
      = (some "divide by zero", { C := 0 })
    ∧ Jsonrpc.Arith.Div { A := 9, B := 2 } { C := 0 } = (none, { C := 4 }) := by
  constructor
  · exact (arith_div_correct { A := 7, B := 0 } { C := 0 }).1 rfl
  · have h := (arith_div_correct { A := 9, B := 2 } { C := 0 }).2
      (by decide) (by decide) (by decide) (by decide) (by decide) (by decide)
    exact h.trans (by decide)

/-- C6: the container-typed handlers behave as ordinary handlers: Map returns
no error and the reply map holds i at key i, Slice returns no error and the
reply slice is extended with i, Array returns no error and element 0 of the
reply array is i. -/
theorem builtin_types_correct (i : Int) (m : Int → Option Int) (l : List Int)
    (a : Jsonrpc.BuiltinTypes.Arr1) :
    (Jsonrpc.BuiltinTypes.Map i m).1 = none
    ∧ (Jsonrpc.BuiltinTypes.Map i m).2 i = some i
    ∧ Jsonrpc.BuiltinTypes.Slice i l = (none, l ++ [i])
    ∧ Jsonrpc.BuiltinTypes.Array i a = (none, { elem0 := i }) := by
  refine ⟨rfl, ?_, rfl, rfl⟩
  simp [Jsonrpc.BuiltinTypes.Map]

/-- C7: an item that fails to parse terminates the serve loop: the responses
written on a stream containing a malformed item do not depend on anything
after that item (the connection is no longer used), and at most one response
per preceding item is written, so the loop returns rather than iterating
past the failure. -/
theorem serveLoop_returns_on_malformed (pre post : List Serve.Incoming) :
    Serve.serveLoop (pre ++ Serve.Incoming.malformed :: post)
      = Serve.serveLoop (pre ++ [Serve.Incoming.malformed])
    ∧ (Serve.serveLoop (pre ++ Serve.Incoming.malformed :: post)).length
        ≤ pre.length := by
  induction pre with
  | nil => exact ⟨rfl, by simp [Serve.serveLoop]⟩
  | cons x xs ih =>
    cases x with
    | malformed => exact ⟨rfl, by simp [Serve.serveLoop]⟩
    | request req outcome =>
      refine ⟨?_, ?_⟩
      · simp [Serve.serveLoop, ih.1]
      · simpa [Serve.serveLoop] using ih.2

/-- C8: a request whose handler terminates abnormally is recovered: the serve
loop writes an error response for that request carrying the failure
description and the loop goes on to serve the remaining items of the
stream. -/
theorem serveLoop_recovers_handler_panic (req : Birpc.Request) (msg : String)
    (rest : List Serve.Incoming) :
    Serve.serveLoop
        (Serve.Incoming.request req (Serve.HandlerOutcome.panicked msg) :: rest)
      = { seq := req.Seq, error := msg, body := none } :: Serve.serveLoop rest :=
  rfl

/-- C9: when the underlying codec read fails, the msgpack ReadRequestHeader
returns that same error and the caller-supplied birpc.Request is returned
entirely unmodified. -/
theorem readRequestHeader_error_leaves_request (e : String) (r : Birpc.Request) :
    Msgpack.msgpackServerCodec.ReadRequestHeader (.error e) r = (some e, r) :=
  rfl

/-- C10: BuiltinTypes.Slice appends rather than overwrites: for every i and
every initial contents l of the reply slice, the final reply slice is l
followed by i. -/
theorem builtin_slice_appends (i : Int) (l : List Int) :
    (Jsonrpc.BuiltinTypes.Slice i l).2 = l ++ [i] :=
  rfl
